import Mathlib

/-!
Verification development for the banking-system repository
(src/include/bank.h, src/src/bank.cpp, src/src/ledger.cpp).

The C++ code is shallowly embedded: the `Bank` state (account array,
success/failure counters, activity log) is a Lean structure, each
operation of `Bank` is a Lean function transliterated statement by
statement from `bank.cpp`, and the pthread mutexes are modelled by a
`locked` flag per account plus an event trace.  In the sequential
semantics used here, acquiring a mutex that is already held blocks the
(only) thread forever; this is modelled by the operation returning
`none`.  Likewise, indexing the account array out of bounds — undefined
behaviour in the C++ — is modelled by `none`.  `long` balances and `int`
amounts are modelled as unbounded `Int` (signed overflow is undefined
behaviour in the source, so the non-overflowing runs are exactly the
ones with defined behaviour); the `unsigned int` transfer amount is a
`Nat`, and the `int → unsigned int` argument conversion performed at the
call site in `ledger.cpp` is the explicit reduction modulo `2 ^ 32`.
-/

/-- One account of the bank: `struct Account` of bank.h
(`accountID : unsigned int`, `balance : long`, `lock : pthread_mutex_t`).
The mutex is modelled by the boolean `locked`. -/
structure Account where
  accountID : Nat
  balance : Int
  locked : Bool
deriving Repr, DecidableEq

/-- Lock-trace events: each successful `pthread_mutex_lock` /
`pthread_mutex_unlock` on an account lock appends one event. -/
inductive LockEvent where
  | lockEv (i : Int)
  | unlockEv (i : Int)
deriving Repr, DecidableEq

/-- One activity-log line, as structured data: operation kind, success
level (`[ SUCCESS ]` vs `[ FAIL ]`) and the fields interpolated by the
`DEPOSITE_MSG` / `WITHDRAW_MSG` / `TRANSFER_MSG` macros of bank.h. -/
inductive Msg where
  | depMsg (ok : Bool) (w l a amt : Int)
  | wdMsg (ok : Bool) (w l a amt : Int)
  | trMsg (ok : Bool) (w l a o : Int) (amt : Nat)
deriving Repr, DecidableEq

/-- The `Bank` object of bank.h: account array, counters `num_succ` and
`num_fail`, and the log emitted through `recordSucc`/`recordFail`
(`cout` lines, kept as a list).  `events` is the lock trace. -/
structure Bank where
  num : Nat
  accounts : List Account
  num_succ : Nat
  num_fail : Nat
  log : List Msg
  events : List LockEvent
deriving Repr, DecidableEq

/-- `accounts[i]` for an `int` index: out of range (including negative)
is undefined behaviour in the C++ and yields `none` here. -/
def lookupAcct (l : List Account) (i : Int) : Option Account :=
  if 0 ≤ i then l[i.toNat]? else none

/-- Read `accounts[i]` in a bank state. -/
def getAccount (b : Bank) (i : Int) : Option Account :=
  lookupAcct b.accounts i

/-- Replace `accounts[i]` (callers establish that `i` is in range). -/
def setAcct (b : Bank) (i : Int) (a : Account) : Bank :=
  { b with accounts := b.accounts.set i.toNat a }

/-- `pthread_mutex_lock(&accounts[i].lock)`: blocks forever (`none`) if
the lock is already held; otherwise sets the flag and records the
event. -/
def lockAcct (b : Bank) (i : Int) : Option Bank :=
  match getAccount b i with
  | none => none
  | some a =>
    if a.locked then none
    else some { setAcct b i { a with locked := true } with
                events := b.events ++ [LockEvent.lockEv i] }

/-- `pthread_mutex_unlock(&accounts[i].lock)`: unlocking a mutex that is
not held is undefined behaviour (`none`). -/
def unlockAcct (b : Bank) (i : Int) : Option Bank :=
  match getAccount b i with
  | none => none
  | some a =>
    if a.locked then
      some { setAcct b i { a with locked := false } with
             events := b.events ++ [LockEvent.unlockEv i] }
    else none

/-- Read `accounts[i].balance`. -/
def getBalance (b : Bank) (i : Int) : Option Int :=
  (getAccount b i).map fun a => a.balance

/-- Write `accounts[i].balance` (the lock flag is untouched). -/
def setBalance (b : Bank) (i : Int) (v : Int) : Option Bank :=
  match getAccount b i with
  | none => none
  | some a => some (setAcct b i { a with balance := v })

/-- `Bank::recordSucc` (bank.cpp:38): under `bank_lock`, emit the
message and increment `num_succ`.  The bank lock is acquired and
released inside the call and is never held across calls, so in the
sequential semantics it is always free and the call is a pure update. -/
def Bank.recordSucc (b : Bank) (m : Msg) : Bank :=
  { b with log := b.log ++ [m], num_succ := b.num_succ + 1 }

/-- `Bank::recordFail` (bank.cpp:25): under `bank_lock`, emit the
message and increment `num_fail`. -/
def Bank.recordFail (b : Bank) (m : Msg) : Bank :=
  { b with log := b.log ++ [m], num_fail := b.num_fail + 1 }

/-- `Bank::Bank(N)` (bank.cpp:65): `N` accounts, ids `0..N-1`, balance
`0`, every lock initialized (free); counters zero. -/
def Bank.init (N : Nat) : Bank :=
  { num := N
    accounts := (List.range N).map fun i => ⟨i, 0, false⟩
    num_succ := 0
    num_fail := 0
    log := []
    events := [] }

/-- `Bank::deposit` (bank.cpp:124): bind `accounts[accountID]`, lock,
`balance += amount`, record success, unlock, return 0. -/
def Bank.deposit (b : Bank) (workerID ledgerID accountID : Int)
    (amount : Int) : Option (Int × Bank) := do
  let _ ← getAccount b accountID
  let b1 ← lockAcct b accountID
  let bal ← getBalance b1 accountID
  let b2 ← setBalance b1 accountID (bal + amount)
  let b3 := b2.recordSucc (Msg.depMsg true workerID ledgerID accountID amount)
  let b4 ← unlockAcct b3 accountID
  pure (0, b4)

/-- `Bank::withdraw` (bank.cpp:159): bind `accounts[accountID]`, lock;
if `amount <= balance` subtract and record success else record failure
and set the return value to -1; unlock; return. -/
def Bank.withdraw (b : Bank) (workerID ledgerID accountID : Int)
    (amount : Int) : Option (Int × Bank) := do
  let _ ← getAccount b accountID
  let b1 ← lockAcct b accountID
  let bal ← getBalance b1 accountID
  if amount ≤ bal then
    let b2 ← setBalance b1 accountID (bal - amount)
    let b3 := b2.recordSucc (Msg.wdMsg true workerID ledgerID accountID amount)
    let b4 ← unlockAcct b3 accountID
    pure (0, b4)
  else
    let b3 := b1.recordFail (Msg.wdMsg false workerID ledgerID accountID amount)
    let b4 ← unlockAcct b3 accountID
    pure ((-1 : Int), b4)

/-- bank.cpp:237-243: release the two locks, reverse of the
ascending-id acquisition order. -/
def unlockTwo (b : Bank) (srcID destID : Int) : Option Bank :=
  if srcID < destID then do
    let x ← unlockAcct b destID
    unlockAcct x srcID
  else do
    let x ← unlockAcct b srcID
    unlockAcct x destID

/-- `Bank::transfer` (bank.cpp:208), transliterated faithfully,
including the self-transfer early return at line 215 which returns -1
while still holding the source lock and without recording anything:
bind the two references; lock the source; if `srcID == destID` return
-1 (the unlock at line 216 is skipped by the early return); otherwise
unlock the source, acquire both locks in ascending-id order, test
`amount <= source.balance` (the `unsigned int` amount promotes to
`long`), move the funds or record a failure, release in reverse
order. -/
def Bank.transfer (b : Bank) (workerID ledgerID srcID destID : Int)
    (amount : Nat) : Option (Int × Bank) := do
  let _ ← getAccount b srcID
  let _ ← getAccount b destID
  let b1 ← lockAcct b srcID
  if srcID = destID then
    pure ((-1 : Int), b1)
  else
    let b2 ← unlockAcct b1 srcID
    let b3 ←
      if srcID < destID then do
        let x ← lockAcct b2 srcID
        lockAcct x destID
      else do
        let x ← lockAcct b2 destID
        lockAcct x srcID
    let sbal ← getBalance b3 srcID
    if (amount : Int) ≤ sbal then
      let b4 ← setBalance b3 srcID (sbal - amount)
      let dbal ← getBalance b4 destID
      let b5 ← setBalance b4 destID (dbal + amount)
      let b6 := b5.recordSucc
        (Msg.trMsg true workerID ledgerID srcID destID amount)
      let b7 ← unlockTwo b6 srcID destID
      pure ((0 : Int), b7)
    else
      let b6 := b3.recordFail
        (Msg.trMsg false workerID ledgerID srcID destID amount)
      let b7 ← unlockTwo b6 srcID destID
      pure ((-1 : Int), b7)

/-- One dispatched operation, carrying the argument fields the worker
passes to the bank (bank.cpp op entry points). -/
inductive Op where
  | dep (w l a amt : Int)
  | wd (w l a amt : Int)
  | tr (w l s d : Int) (amt : Nat)
deriving Repr, DecidableEq

/-- Dispatch one operation to the corresponding `Bank` member. -/
def applyOp (b : Bank) : Op → Option (Int × Bank)
  | Op.dep w l a amt => b.deposit w l a amt
  | Op.wd w l a amt => b.withdraw w l a amt
  | Op.tr w l s d amt => b.transfer w l s d amt

/-- Sequential execution of a list of operations; a blocked or
undefined operation (`none`) makes the whole run stuck. -/
def runOps : Bank → List Op → Option Bank
  | b, [] => some b
  | b, op :: rest =>
    match applyOp b op with
    | none => none
    | some (_, b1) => runOps b1 rest

/-- Modelled from the spec: the `Ledger` entry struct of the missing
include/ledger.h — fields `acc`, `other`, `amount`, `mode`
(0 = DEPOSIT, 1 = WITHDRAW, 2 = TRANSFER) and the load-time
`ledgerID`.  Field types follow the ledger file format of the spec
(four `int` fields per line). -/
structure Ledger where
  acc : Int
  other : Int
  amount : Int
  mode : Int
  ledgerID : Int
deriving Repr, DecidableEq

/-- The dispatch of `worker` (ledger.cpp:144-154): mode `D` (0) goes to
deposit, mode `W` (1) to withdraw, anything else to transfer.  The
`int` amount converts to the `unsigned int` transfer parameter by
reduction modulo `2 ^ 32`. -/
def dispatchEntry (b : Bank) (workerID : Int) (e : Ledger) :
    Option (Int × Bank) :=
  if e.mode = 0 then b.deposit workerID e.ledgerID e.acc e.amount
  else if e.mode = 1 then b.withdraw workerID e.ledgerID e.acc e.amount
  else b.transfer workerID e.ledgerID e.acc e.other
    ((e.amount % (2 ^ 32 : Int)).toNat)

/-- The `worker` loop (ledger.cpp:128) run by a single worker: take the
front entry, dispatch it, repeat until the ledger is empty.  A blocked
operation leaves the worker stuck forever (`none`). -/
def runLedger : Bank → List Ledger → Option Bank
  | b, [] => some b
  | b, e :: rest =>
    match dispatchEntry b 0 e with
    | none => none
    | some (_, b1) => runLedger b1 rest

/-! ### Index and primitive lemmas -/

theorem lookupAcct_nonneg {l : List Account} {i : Int} {a : Account}
    (h : lookupAcct l i = some a) : 0 ≤ i := by
  by_contra hneg
  simp [lookupAcct, hneg] at h

theorem lookupAcct_lt {l : List Account} {i : Int} {a : Account}
    (h : lookupAcct l i = some a) : i.toNat < l.length := by
  have h0 : 0 ≤ i := lookupAcct_nonneg h
  simp only [lookupAcct, if_pos h0] at h
  exact (List.getElem?_eq_some_iff.mp h).1

theorem lookupAcct_mem {l : List Account} {i : Int} {a : Account}
    (h : lookupAcct l i = some a) : a ∈ l := by
  have h0 : 0 ≤ i := lookupAcct_nonneg h
  simp only [lookupAcct, if_pos h0] at h
  obtain ⟨hlt, he⟩ := List.getElem?_eq_some_iff.mp h
  exact he ▸ List.getElem_mem hlt

theorem lookupAcct_set_self {l : List Account} {i : Int} {a : Account}
    (h : lookupAcct l i = some a) (x : Account) :
    lookupAcct (l.set i.toNat x) i = some x := by
  have h0 : 0 ≤ i := lookupAcct_nonneg h
  have hlt : i.toNat < l.length := lookupAcct_lt h
  simp [lookupAcct, h0, List.getElem?_set_self, hlt]

theorem lookupAcct_set_ne {l : List Account} {i j : Int} (x : Account)
    (hne : i.toNat ≠ j.toNat) :
    lookupAcct (l.set i.toNat x) j = lookupAcct l j := by
  by_cases h0 : 0 ≤ j
  · simp [lookupAcct, h0, List.getElem?_set_ne hne]
  · simp [lookupAcct, h0]

theorem toNat_ne_of_ne {i j : Int} (hi : 0 ≤ i) (hj : 0 ≤ j)
    (hne : i ≠ j) : i.toNat ≠ j.toNat := by
  intro h
  exact hne (by omega)

theorem lockAcct_eq {b : Bank} {i : Int} {a : Account}
    (ha : getAccount b i = some a) (hl : a.locked = false) :
    lockAcct b i =
      some { b with
             accounts := b.accounts.set i.toNat { a with locked := true }
             events := b.events ++ [LockEvent.lockEv i] } := by
  simp [lockAcct, ha, hl, setAcct]

theorem unlockAcct_eq {b : Bank} {i : Int} {a : Account}
    (ha : getAccount b i = some a) (hl : a.locked = true) :
    unlockAcct b i =
      some { b with
             accounts := b.accounts.set i.toNat { a with locked := false }
             events := b.events ++ [LockEvent.unlockEv i] } := by
  simp [unlockAcct, ha, hl, setAcct]

theorem getBalance_eq {b : Bank} {i : Int} {a : Account}
    (ha : getAccount b i = some a) :
    getBalance b i = some a.balance := by
  simp [getBalance, ha]

theorem setBalance_eq {b : Bank} {i : Int} {a : Account}
    (ha : getAccount b i = some a) (v : Int) :
    setBalance b i v =
      some { b with
             accounts := b.accounts.set i.toNat { a with balance := v } } := by
  simp [setBalance, ha, setAcct]

/-! ### Characterization of the operations on a well-formed state -/

/-- Result of a deposit on an in-range, unlocked account: return 0,
balance increased, one success and one log line recorded, lock
re-released. -/
theorem deposit_eq {b : Bank} {i : Int} {a : Account} (w l amt : Int)
    (ha : getAccount b i = some a) (hl : a.locked = false) :
    b.deposit w l i amt =
      some (0,
        { b with
          accounts := b.accounts.set i.toNat
            ⟨a.accountID, a.balance + amt, false⟩
          num_succ := b.num_succ + 1
          log := b.log ++ [Msg.depMsg true w l i amt]
          events := b.events ++ [LockEvent.lockEv i, LockEvent.unlockEv i] }) := by
  have hi0 : 0 ≤ i := lookupAcct_nonneg ha
  have hlt : i.toNat < b.accounts.length := lookupAcct_lt ha
  have hget : b.accounts[i.toNat]? = some a := by
    simpa [getAccount, lookupAcct, hi0] using ha
  simp [Bank.deposit, lockAcct, unlockAcct, getBalance, setBalance,
    getAccount, lookupAcct, setAcct, Bank.recordSucc, hi0, hget, hlt, hl,
    List.set_set]

/-- Result of a withdraw with sufficient funds: return 0, balance
decreased by the amount, one success recorded. -/
theorem withdraw_eq_succ {b : Bank} {i : Int} {a : Account} (w l : Int)
    {amt : Int} (ha : getAccount b i = some a) (hl : a.locked = false)
    (hle : amt ≤ a.balance) :
    b.withdraw w l i amt =
      some (0,
        { b with
          accounts := b.accounts.set i.toNat
            ⟨a.accountID, a.balance - amt, false⟩
          num_succ := b.num_succ + 1
          log := b.log ++ [Msg.wdMsg true w l i amt]
          events := b.events ++ [LockEvent.lockEv i, LockEvent.unlockEv i] }) := by
  have hi0 : 0 ≤ i := lookupAcct_nonneg ha
  have hlt : i.toNat < b.accounts.length := lookupAcct_lt ha
  have hget : b.accounts[i.toNat]? = some a := by
    simpa [getAccount, lookupAcct, hi0] using ha
  simp [Bank.withdraw, lockAcct, unlockAcct, getBalance, setBalance,
    getAccount, lookupAcct, setAcct, Bank.recordSucc, hi0, hget, hlt, hl,
    hle, List.set_set]

/-- Result of a withdraw with insufficient funds: return -1, balance
unchanged, one failure recorded. -/
theorem withdraw_eq_fail {b : Bank} {i : Int} {a : Account} (w l : Int)
    {amt : Int} (ha : getAccount b i = some a) (hl : a.locked = false)
    (hgt : a.balance < amt) :
    b.withdraw w l i amt =
      some (-1,
        { b with
          accounts := b.accounts.set i.toNat
            ⟨a.accountID, a.balance, false⟩
          num_fail := b.num_fail + 1
          log := b.log ++ [Msg.wdMsg false w l i amt]
          events := b.events ++ [LockEvent.lockEv i, LockEvent.unlockEv i] }) := by
  have hi0 : 0 ≤ i := lookupAcct_nonneg ha
  have hlt : i.toNat < b.accounts.length := lookupAcct_lt ha
  have hget : b.accounts[i.toNat]? = some a := by
    simpa [getAccount, lookupAcct, hi0] using ha
  have hn : ¬ amt ≤ a.balance := not_le.mpr hgt
  simp [Bank.withdraw, lockAcct, unlockAcct, getBalance, setBalance,
    getAccount, lookupAcct, setAcct, Bank.recordFail, hi0, hget, hlt, hl,
    hn, List.set_set]

/-- Result of a self-transfer on an in-range, unlocked account: the
early return at bank.cpp:215 yields -1 with the source lock still held,
no balance changed, and nothing recorded. -/
theorem transfer_self_eq {b : Bank} {s : Int} {a : Account}
    (w l : Int) (amt : Nat)
    (ha : getAccount b s = some a) (hl : a.locked = false) :
    b.transfer w l s s amt =
      some (-1,
        { b with
          accounts := b.accounts.set s.toNat { a with locked := true }
          events := b.events ++ [LockEvent.lockEv s] }) := by
  have hi0 : 0 ≤ s := lookupAcct_nonneg ha
  have hlt : s.toNat < b.accounts.length := lookupAcct_lt ha
  have hget : b.accounts[s.toNat]? = some a := by
    simpa [getAccount, lookupAcct, hi0] using ha
  simp [Bank.transfer, lockAcct, getAccount, lookupAcct, setAcct,
    hi0, hget, hlt, hl]

/-- Transfer with `srcID < destID` and sufficient funds. -/
theorem transfer_eq_lt_succ {b : Bank} {s d : Int} {as ad : Account}
    (w l : Int) {amt : Nat}
    (hs : getAccount b s = some as) (hd : getAccount b d = some ad)
    (hls : as.locked = false) (hld : ad.locked = false)
    (hsd : s < d) (hle : (amt : Int) ≤ as.balance) :
    b.transfer w l s d amt =
      some (0,
        { b with
          accounts :=
            ((((b.accounts.set s.toNat ⟨as.accountID, as.balance, true⟩).set
                d.toNat ⟨ad.accountID, ad.balance, true⟩).set
                s.toNat ⟨as.accountID, as.balance - amt, true⟩).set
                d.toNat ⟨ad.accountID, ad.balance + amt, false⟩).set
                s.toNat ⟨as.accountID, as.balance - amt, false⟩
          num_succ := b.num_succ + 1
          log := b.log ++ [Msg.trMsg true w l s d amt]
          events := b.events ++
            [LockEvent.lockEv s, LockEvent.unlockEv s, LockEvent.lockEv s,
             LockEvent.lockEv d, LockEvent.unlockEv d, LockEvent.unlockEv s] }) := by
  have hs0 : 0 ≤ s := lookupAcct_nonneg hs
  have hd0 : 0 ≤ d := lookupAcct_nonneg hd
  have hslt : s.toNat < b.accounts.length := lookupAcct_lt hs
  have hdlt : d.toNat < b.accounts.length := lookupAcct_lt hd
  have hgets : b.accounts[s.toNat]? = some as := by
    simpa [getAccount, lookupAcct, hs0] using hs
  have hgetd : b.accounts[d.toNat]? = some ad := by
    simpa [getAccount, lookupAcct, hd0] using hd
  have hne : s ≠ d := ne_of_lt hsd
  have hne2 : s.toNat ≠ d.toNat := toNat_ne_of_ne hs0 hd0 hne
  have hne2s : d.toNat ≠ s.toNat := Ne.symm hne2
  have hgs : b.accounts[s.toNat] = as := (List.getElem?_eq_some_iff.mp hgets).2
  have hgd : b.accounts[d.toNat] = ad := (List.getElem?_eq_some_iff.mp hgetd).2
  simp [Bank.transfer, unlockTwo, lockAcct, unlockAcct, getBalance,
    setBalance, getAccount, lookupAcct, setAcct, Bank.recordSucc,
    hs0, hd0, hslt, hdlt, hgets, hgetd, hgs, hgd, hls, hld, hne, hne2, hne2s,
    hsd, hle, List.set_set]

/-- Transfer with `srcID < destID` and insufficient funds. -/
theorem transfer_eq_lt_fail {b : Bank} {s d : Int} {as ad : Account}
    (w l : Int) {amt : Nat}
    (hs : getAccount b s = some as) (hd : getAccount b d = some ad)
    (hls : as.locked = false) (hld : ad.locked = false)
    (hsd : s < d) (hgt : as.balance < (amt : Int)) :
    b.transfer w l s d amt =
      some (-1,
        { b with
          accounts :=
            ((b.accounts.set s.toNat ⟨as.accountID, as.balance, true⟩).set
                d.toNat ⟨ad.accountID, ad.balance, false⟩).set
                s.toNat ⟨as.accountID, as.balance, false⟩
          num_fail := b.num_fail + 1
          log := b.log ++ [Msg.trMsg false w l s d amt]
          events := b.events ++
            [LockEvent.lockEv s, LockEvent.unlockEv s, LockEvent.lockEv s,
             LockEvent.lockEv d, LockEvent.unlockEv d, LockEvent.unlockEv s] }) := by
  have hs0 : 0 ≤ s := lookupAcct_nonneg hs
  have hd0 : 0 ≤ d := lookupAcct_nonneg hd
  have hslt : s.toNat < b.accounts.length := lookupAcct_lt hs
  have hdlt : d.toNat < b.accounts.length := lookupAcct_lt hd
  have hgets : b.accounts[s.toNat]? = some as := by
    simpa [getAccount, lookupAcct, hs0] using hs
  have hgetd : b.accounts[d.toNat]? = some ad := by
    simpa [getAccount, lookupAcct, hd0] using hd
  have hne : s ≠ d := ne_of_lt hsd
  have hne2 : s.toNat ≠ d.toNat := toNat_ne_of_ne hs0 hd0 hne
  have hne2s : d.toNat ≠ s.toNat := Ne.symm hne2
  have hgs : b.accounts[s.toNat] = as := (List.getElem?_eq_some_iff.mp hgets).2
  have hgd : b.accounts[d.toNat] = ad := (List.getElem?_eq_some_iff.mp hgetd).2
  have hn : ¬ (amt : Int) ≤ as.balance := not_le.mpr hgt
  simp [Bank.transfer, unlockTwo, lockAcct, unlockAcct, getBalance,
    setBalance, getAccount, lookupAcct, setAcct, Bank.recordFail,
    hs0, hd0, hslt, hdlt, hgets, hgetd, hgs, hgd, hls, hld, hne, hne2, hne2s,
    hsd, hn, List.set_set]

/-- Transfer with `destID < srcID` and sufficient funds. -/
theorem transfer_eq_gt_succ {b : Bank} {s d : Int} {as ad : Account}
    (w l : Int) {amt : Nat}
    (hs : getAccount b s = some as) (hd : getAccount b d = some ad)
    (hls : as.locked = false) (hld : ad.locked = false)
    (hds : d < s) (hle : (amt : Int) ≤ as.balance) :
    b.transfer w l s d amt =
      some (0,
        { b with
          accounts :=
            (((((b.accounts.set s.toNat ⟨as.accountID, as.balance, false⟩).set
                d.toNat ⟨ad.accountID, ad.balance, true⟩).set
                s.toNat ⟨as.accountID, as.balance - amt, true⟩).set
                d.toNat ⟨ad.accountID, ad.balance + amt, true⟩).set
                s.toNat ⟨as.accountID, as.balance - amt, false⟩).set
                d.toNat ⟨ad.accountID, ad.balance + amt, false⟩
          num_succ := b.num_succ + 1
          log := b.log ++ [Msg.trMsg true w l s d amt]
          events := b.events ++
            [LockEvent.lockEv s, LockEvent.unlockEv s, LockEvent.lockEv d,
             LockEvent.lockEv s, LockEvent.unlockEv s, LockEvent.unlockEv d] }) := by
  have hs0 : 0 ≤ s := lookupAcct_nonneg hs
  have hd0 : 0 ≤ d := lookupAcct_nonneg hd
  have hslt : s.toNat < b.accounts.length := lookupAcct_lt hs
  have hdlt : d.toNat < b.accounts.length := lookupAcct_lt hd
  have hgets : b.accounts[s.toNat]? = some as := by
    simpa [getAccount, lookupAcct, hs0] using hs
  have hgetd : b.accounts[d.toNat]? = some ad := by
    simpa [getAccount, lookupAcct, hd0] using hd
  have hne : s ≠ d := Ne.symm (ne_of_lt hds)
  have hne2 : s.toNat ≠ d.toNat := toNat_ne_of_ne hs0 hd0 hne
  have hne2s : d.toNat ≠ s.toNat := Ne.symm hne2
  have hgs : b.accounts[s.toNat] = as := (List.getElem?_eq_some_iff.mp hgets).2
  have hgd : b.accounts[d.toNat] = ad := (List.getElem?_eq_some_iff.mp hgetd).2
  have hnlt : ¬ s < d := not_lt.mpr (le_of_lt hds)
  simp [Bank.transfer, unlockTwo, lockAcct, unlockAcct, getBalance,
    setBalance, getAccount, lookupAcct, setAcct, Bank.recordSucc,
    hs0, hd0, hslt, hdlt, hgets, hgetd, hgs, hgd, hls, hld, hne, hne2, hne2s,
    hnlt, hle, List.set_set]

/-- Transfer with `destID < srcID` and insufficient funds. -/
theorem transfer_eq_gt_fail {b : Bank} {s d : Int} {as ad : Account}
    (w l : Int) {amt : Nat}
    (hs : getAccount b s = some as) (hd : getAccount b d = some ad)
    (hls : as.locked = false) (hld : ad.locked = false)
    (hds : d < s) (hgt : as.balance < (amt : Int)) :
    b.transfer w l s d amt =
      some (-1,
        { b with
          accounts :=
            (((b.accounts.set s.toNat ⟨as.accountID, as.balance, false⟩).set
                d.toNat ⟨ad.accountID, ad.balance, true⟩).set
                s.toNat ⟨as.accountID, as.balance, false⟩).set
                d.toNat ⟨ad.accountID, ad.balance, false⟩
          num_fail := b.num_fail + 1
          log := b.log ++ [Msg.trMsg false w l s d amt]
          events := b.events ++
            [LockEvent.lockEv s, LockEvent.unlockEv s, LockEvent.lockEv d,
             LockEvent.lockEv s, LockEvent.unlockEv s, LockEvent.unlockEv d] }) := by
  have hs0 : 0 ≤ s := lookupAcct_nonneg hs
  have hd0 : 0 ≤ d := lookupAcct_nonneg hd
  have hslt : s.toNat < b.accounts.length := lookupAcct_lt hs
  have hdlt : d.toNat < b.accounts.length := lookupAcct_lt hd
  have hgets : b.accounts[s.toNat]? = some as := by
    simpa [getAccount, lookupAcct, hs0] using hs
  have hgetd : b.accounts[d.toNat]? = some ad := by
    simpa [getAccount, lookupAcct, hd0] using hd
  have hne : s ≠ d := Ne.symm (ne_of_lt hds)
  have hne2 : s.toNat ≠ d.toNat := toNat_ne_of_ne hs0 hd0 hne
  have hne2s : d.toNat ≠ s.toNat := Ne.symm hne2
  have hgs : b.accounts[s.toNat] = as := (List.getElem?_eq_some_iff.mp hgets).2
  have hgd : b.accounts[d.toNat] = ad := (List.getElem?_eq_some_iff.mp hgetd).2
  have hnlt : ¬ s < d := not_lt.mpr (le_of_lt hds)
  have hn : ¬ (amt : Int) ≤ as.balance := not_le.mpr hgt
  simp [Bank.transfer, unlockTwo, lockAcct, unlockAcct, getBalance,
    setBalance, getAccount, lookupAcct, setAcct, Bank.recordFail,
    hs0, hd0, hslt, hdlt, hgets, hgetd, hgs, hgd, hls, hld, hne, hne2, hne2s,
    hnlt, hn, List.set_set]

/-! ### Inversion lemmas: what a successful operation implies -/

theorem lockAcct_some_inv {b b1 : Bank} {i : Int}
    (h : lockAcct b i = some b1) :
    ∃ a, getAccount b i = some a ∧ a.locked = false := by
  unfold lockAcct at h
  cases hga : getAccount b i with
  | none => rw [hga] at h; exact absurd h (by simp)
  | some a =>
    rw [hga] at h
    by_cases hl : a.locked
    · simp [hl] at h
    · exact ⟨a, rfl, by simpa using hl⟩

theorem deposit_inv {b : Bank} {w l i amt r : Int} {b2 : Bank}
    (h : b.deposit w l i amt = some (r, b2)) :
    ∃ a, getAccount b i = some a ∧ a.locked = false := by
  simp only [Bank.deposit, Option.bind_eq_bind, Option.bind_eq_some] at h
  obtain ⟨a, ha, b1, hb1, h⟩ := h
  obtain ⟨aa, haa, hll⟩ := lockAcct_some_inv hb1
  exact ⟨a, ha, by rw [ha] at haa; cases haa; exact hll⟩

theorem withdraw_inv {b : Bank} {w l i amt r : Int} {b2 : Bank}
    (h : b.withdraw w l i amt = some (r, b2)) :
    ∃ a, getAccount b i = some a ∧ a.locked = false := by
  simp only [Bank.withdraw, Option.bind_eq_bind, Option.bind_eq_some] at h
  obtain ⟨a, ha, b1, hb1, h⟩ := h
  obtain ⟨aa, haa, hll⟩ := lockAcct_some_inv hb1
  exact ⟨a, ha, by rw [ha] at haa; cases haa; exact hll⟩

/-- If the destination account's lock is already held and `s ≠ d`, the
transfer blocks at the ordered-acquisition phase. -/
theorem transfer_none_of_dest_locked {b : Bank} {s d : Int} {as ad : Account}
    (w l : Int) (amt : Nat)
    (hs : getAccount b s = some as) (hd : getAccount b d = some ad)
    (hls : as.locked = false) (hld : ad.locked = true) (hsd : s ≠ d) :
    b.transfer w l s d amt = none := by
  have hs0 : 0 ≤ s := lookupAcct_nonneg hs
  have hd0 : 0 ≤ d := lookupAcct_nonneg hd
  have hslt : s.toNat < b.accounts.length := lookupAcct_lt hs
  have hdlt : d.toNat < b.accounts.length := lookupAcct_lt hd
  have hgets : b.accounts[s.toNat]? = some as := by
    simpa [getAccount, lookupAcct, hs0] using hs
  have hgetd : b.accounts[d.toNat]? = some ad := by
    simpa [getAccount, lookupAcct, hd0] using hd
  have hne2 : s.toNat ≠ d.toNat := toNat_ne_of_ne hs0 hd0 hsd
  have hne2s : d.toNat ≠ s.toNat := Ne.symm hne2
  have hgs : b.accounts[s.toNat] = as := (List.getElem?_eq_some_iff.mp hgets).2
  have hgd : b.accounts[d.toNat] = ad := (List.getElem?_eq_some_iff.mp hgetd).2
  rcases lt_or_gt_of_ne hsd with hlt | hgt
  · simp [Bank.transfer, unlockTwo, lockAcct, unlockAcct, getBalance,
      setBalance, getAccount, lookupAcct, setAcct,
      hs0, hd0, hslt, hdlt, hgets, hgetd, hgs, hgd, hls, hld, hsd, hne2,
      hne2s, hlt, List.set_set]
  · have hnlt : ¬ s < d := not_lt.mpr (le_of_lt hgt)
    simp [Bank.transfer, unlockTwo, lockAcct, unlockAcct, getBalance,
      setBalance, getAccount, lookupAcct, setAcct,
      hs0, hd0, hslt, hdlt, hgets, hgetd, hgs, hgd, hls, hld, hsd, hne2,
      hne2s, hnlt, List.set_set]

theorem transfer_inv {b : Bank} {w l s d : Int} {amt : Nat} {r : Int}
    {b2 : Bank} (h : b.transfer w l s d amt = some (r, b2)) :
    (s = d ∧ ∃ a, getAccount b s = some a ∧ a.locked = false) ∨
    (s ≠ d ∧ ∃ as ad, getAccount b s = some as ∧ getAccount b d = some ad ∧
      as.locked = false ∧ ad.locked = false) := by
  have h0 := h
  simp only [Bank.transfer, Option.bind_eq_bind, Option.bind_eq_some] at h
  obtain ⟨as0, hs0, ad0, hd0, b1, hb1, h⟩ := h
  obtain ⟨as1, hs1, hls1⟩ := lockAcct_some_inv hb1
  rw [hs0] at hs1
  cases hs1
  by_cases hsd : s = d
  · exact Or.inl ⟨hsd, as0, hs0, hls1⟩
  · refine Or.inr ⟨hsd, as0, ad0, hs0, hd0, hls1, ?_⟩
    by_contra hlocked
    have hld : ad0.locked = true := by
      cases hc : ad0.locked with
      | false => exact absurd hc hlocked
      | true => rfl
    rw [transfer_none_of_dest_locked w l amt hs0 hd0 hls1 hld hsd] at h0
    exact Option.noConfusion h0

/-! ### Preservation of non-negative balances -/

/-- All balances of a bank state are non-negative. -/
def balsNonneg (b : Bank) : Prop := ∀ x ∈ b.accounts, 0 ≤ x.balance

theorem balsNonneg_set {l : List Account} {a : Account} {n : Nat}
    (h : ∀ x ∈ l, 0 ≤ x.balance) (hb : 0 ≤ a.balance) :
    ∀ x ∈ l.set n a, 0 ≤ x.balance := by
  intro x hx
  rcases List.mem_or_eq_of_mem_set hx with hm | he
  · exact h x hm
  · exact he ▸ hb

theorem deposit_preserves_nonneg {b : Bank} {w l i amt r : Int} {b2 : Bank}
    (h : b.deposit w l i amt = some (r, b2)) (hamt : 0 ≤ amt)
    (hb : balsNonneg b) : balsNonneg b2 := by
  obtain ⟨a, ha, hl⟩ := deposit_inv h
  rw [deposit_eq w l amt ha hl] at h
  cases h
  have ha0 : 0 ≤ a.balance := hb a (lookupAcct_mem ha)
  exact balsNonneg_set hb (by simpa using add_nonneg ha0 hamt)

theorem withdraw_preserves_nonneg {b : Bank} {w l i amt r : Int} {b2 : Bank}
    (h : b.withdraw w l i amt = some (r, b2))
    (hb : balsNonneg b) : balsNonneg b2 := by
  obtain ⟨a, ha, hl⟩ := withdraw_inv h
  have ha0 : 0 ≤ a.balance := hb a (lookupAcct_mem ha)
  by_cases hle : amt ≤ a.balance
  · rw [withdraw_eq_succ w l ha hl hle] at h
    cases h
    exact balsNonneg_set hb (by simpa using sub_nonneg.mpr hle)
  · rw [withdraw_eq_fail w l ha hl (not_le.mp hle)] at h
    cases h
    exact balsNonneg_set hb (by simpa using ha0)

theorem transfer_preserves_nonneg {b : Bank} {w l s d : Int} {amt : Nat}
    {r : Int} {b2 : Bank} (h : b.transfer w l s d amt = some (r, b2))
    (hb : balsNonneg b) : balsNonneg b2 := by
  rcases transfer_inv h with ⟨hsd, a, ha, hl⟩ | ⟨hsd, as, ad, hs, hd, hls, hld⟩
  · subst hsd
    rw [transfer_self_eq w l amt ha hl] at h
    cases h
    exact balsNonneg_set hb (by simpa using hb a (lookupAcct_mem ha))
  · have hs0 : 0 ≤ as.balance := hb as (lookupAcct_mem hs)
    have hd0 : 0 ≤ ad.balance := hb ad (lookupAcct_mem hd)
    have hsum : 0 ≤ ad.balance + (amt : Int) :=
      add_nonneg hd0 (Int.natCast_nonneg amt)
    rcases lt_or_gt_of_ne hsd with hlt | hgt
    · by_cases hle : (amt : Int) ≤ as.balance
      · rw [transfer_eq_lt_succ w l hs hd hls hld hlt hle] at h
        cases h
        exact balsNonneg_set (balsNonneg_set (balsNonneg_set (balsNonneg_set
          (balsNonneg_set hb (by simpa using hs0)) (by simpa using hd0))
          (by simpa using sub_nonneg.mpr hle)) (by simpa using hsum))
          (by simpa using sub_nonneg.mpr hle)
      · rw [transfer_eq_lt_fail w l hs hd hls hld hlt (not_le.mp hle)] at h
        cases h
        exact balsNonneg_set (balsNonneg_set
          (balsNonneg_set hb (by simpa using hs0)) (by simpa using hd0))
          (by simpa using hs0)
    · by_cases hle : (amt : Int) ≤ as.balance
      · rw [transfer_eq_gt_succ w l hs hd hls hld hgt hle] at h
        cases h
        exact balsNonneg_set (balsNonneg_set (balsNonneg_set (balsNonneg_set
          (balsNonneg_set (balsNonneg_set hb (by simpa using hs0))
          (by simpa using hd0)) (by simpa using sub_nonneg.mpr hle))
          (by simpa using hsum)) (by simpa using sub_nonneg.mpr hle))
          (by simpa using hsum)
      · rw [transfer_eq_gt_fail w l hs hd hls hld hgt (not_le.mp hle)] at h
        cases h
        exact balsNonneg_set (balsNonneg_set (balsNonneg_set
          (balsNonneg_set hb (by simpa using hs0)) (by simpa using hd0))
          (by simpa using hs0)) (by simpa using hd0)

/-- Amount-sign precondition on one dispatched operation (the transfer
amount is `unsigned` and therefore always non-negative). -/
def opAmountOk : Op → Bool
  | Op.dep _ _ _ amt => decide (0 ≤ amt)
  | Op.wd _ _ _ amt => decide (0 ≤ amt)
  | Op.tr _ _ _ _ _ => true

theorem applyOp_preserves_nonneg {b : Bank} {op : Op} {r : Int} {b2 : Bank}
    (h : applyOp b op = some (r, b2)) (hok : opAmountOk op = true)
    (hb : balsNonneg b) : balsNonneg b2 := by
  cases op with
  | dep w l a amt =>
    exact deposit_preserves_nonneg h (of_decide_eq_true hok) hb
  | wd w l a amt => exact withdraw_preserves_nonneg h hb
  | tr w l s d amt => exact transfer_preserves_nonneg h hb

theorem runOps_preserves_nonneg {ops : List Op} :
    ∀ {b : Bank} {b2 : Bank}, runOps b ops = some b2 →
    (∀ op ∈ ops, opAmountOk op = true) → balsNonneg b → balsNonneg b2 := by
  induction ops with
  | nil => intro b b2 h _ hb; cases h; exact hb
  | cons op rest ih =>
    intro b b2 h hok hb
    unfold runOps at h
    cases happ : applyOp b op with
    | none => rw [happ] at h; exact absurd h (by simp)
    | some p =>
      obtain ⟨r1, bb⟩ := p
      rw [happ] at h
      exact ih h (fun o ho => hok o (List.mem_cons_of_mem _ ho))
        (applyOp_preserves_nonneg happ (hok op (List.mem_cons_self op rest))
          hb)

theorem init_balsNonneg (N : Nat) : balsNonneg (Bank.init N) := by
  intro x hx
  simp only [Bank.init, List.mem_map] at hx
  obtain ⟨i, _, he⟩ := hx
  simp [← he]

/-! ### Deposit sequences -/

theorem lookupAcct_set_self2 {l : List Account} {i : Int}
    (h0 : 0 ≤ i) (hlt : i.toNat < l.length) (x : Account) :
    lookupAcct (l.set i.toNat x) i = some x := by
  simp [lookupAcct, h0, List.getElem?_set_self, hlt]

theorem getAccount_init {N : Nat} {i : Int} (h0 : 0 ≤ i)
    (hN : i.toNat < N) :
    getAccount (Bank.init N) i = some ⟨i.toNat, 0, false⟩ := by
  simp [getAccount, lookupAcct, Bank.init, h0, hN]

/-- Effect of a list of deposits into one account `i`: all succeed, the
balance increases by the sum of the amounts, and exactly one success
(and log line) is recorded per deposit. -/
theorem runOps_deposits {i : Int} :
    ∀ (ds : List (Int × Int × Int)) {b : Bank} {a : Account},
    getAccount b i = some a → a.locked = false →
    ∃ b2, runOps b (ds.map fun p => Op.dep p.1 p.2.1 i p.2.2) = some b2 ∧
      getAccount b2 i =
        some ⟨a.accountID, a.balance + (ds.map fun p => p.2.2).sum, false⟩ ∧
      b2.num_succ = b.num_succ + ds.length ∧
      b2.num_fail = b.num_fail ∧
      b2.log.length = b.log.length + ds.length := by
  intro ds
  induction ds with
  | nil =>
    intro b a ha hl
    refine ⟨b, rfl, ?_, rfl, rfl, rfl⟩
    cases a with
    | mk aid bal lk =>
      simp only at hl
      subst hl
      simpa using ha
  | cons p rest ih =>
    intro b a ha hl
    have hdep := deposit_eq (i := i) p.1 p.2.1 p.2.2 ha hl
    have ha2 : getAccount
        { b with
          accounts := b.accounts.set i.toNat
            ⟨a.accountID, a.balance + p.2.2, false⟩
          num_succ := b.num_succ + 1
          log := b.log ++ [Msg.depMsg true p.1 p.2.1 i p.2.2]
          events := b.events ++ [LockEvent.lockEv i, LockEvent.unlockEv i] } i =
        some ⟨a.accountID, a.balance + p.2.2, false⟩ := by
      simpa [getAccount] using
        lookupAcct_set_self ha ⟨a.accountID, a.balance + p.2.2, false⟩
    obtain ⟨b2, hrun, hget, hsucc, hfail, hlog⟩ := ih ha2 rfl
    refine ⟨b2, ?_, ?_, ?_, ?_, ?_⟩
    · simp only [List.map_cons]
      unfold runOps
      rw [show applyOp b (Op.dep p.1 p.2.1 i p.2.2) = _ from hdep]
      exact hrun
    · rw [hget]
      have : a.balance + p.2.2 + ((rest.map fun p => p.2.2).sum) =
          a.balance + (p.2.2 + (rest.map fun p => p.2.2).sum) := by ring
      simp [this]
    · simp only [hsucc]
      simp [List.length_cons]
      omega
    · simpa using hfail
    · simp only [hlog]
      simp [List.length_cons]
      omega

/-! ### Claims -/

/-- A concrete two-account state used to instantiate theorems with
hypotheses: account 0 holds 100, account 1 holds 0, no lock held. -/
def bankA : Bank :=
  { num := 2
    accounts := [⟨0, 100, false⟩, ⟨1, 0, false⟩]
    num_succ := 0
    num_fail := 0
    log := []
    events := [] }

/-- Claim C1 counterexample: at the concrete input
`transfer(w=0, l=0, src=2, dest=2, amount=10)` on a fresh three-account
bank, the self-transfer DOES acquire a lock (the source account's),
refuting the claim's "acquires no lock" at this input. -/
theorem claim1_counterexample :
    ((Bank.init 3).transfer 0 0 2 2 10).map (fun rb => rb.2.events) =
      some [LockEvent.lockEv 2] ∧
    ¬ ((Bank.init 3).transfer 0 0 2 2 10).map (fun rb => rb.2.events) =
      some [] := by
  decide

/-- Claim C1 (amended): a self-transfer on an in-range account whose
lock is free fails immediately (returns -1), mutates no balance and
records nothing, but it acquires the source account's lock (exactly one
lock event is appended) and returns with that lock still held. -/
theorem claim1_self_transfer_acquires_lock {b : Bank} {s : Int}
    {a : Account} (w l : Int) (amt : Nat)
    (ha : getAccount b s = some a) (hl : a.locked = false) :
    ∃ b2, b.transfer w l s s amt = some (-1, b2) ∧
      (∀ j : Int, getBalance b2 j = getBalance b j) ∧
      b2.num_succ = b.num_succ ∧ b2.num_fail = b.num_fail ∧
      b2.log = b.log ∧
      b2.events = b.events ++ [LockEvent.lockEv s] ∧
      getAccount b2 s = some { a with locked := true } := by
  have hs0 : 0 ≤ s := lookupAcct_nonneg ha
  have hslt : s.toNat < b.accounts.length := lookupAcct_lt ha
  have hgets : b.accounts[s.toNat]? = some a := by
    simpa [getAccount, lookupAcct, hs0] using ha
  refine ⟨_, transfer_self_eq w l amt ha hl, ?_, rfl, rfl, rfl, rfl, ?_⟩
  · intro j
    by_cases hj0 : 0 ≤ j
    · by_cases hjs : j.toNat = s.toNat
      · simp [getBalance, getAccount, lookupAcct, hj0, hjs,
          List.getElem?_set_self, hslt, hgets]
      · simp [getBalance, getAccount, lookupAcct, hj0,
          List.getElem?_set_ne (fun he => hjs he.symm)]
    · simp [getBalance, getAccount, lookupAcct, hj0]
  · simpa [getAccount] using lookupAcct_set_self ha { a with locked := true }

/-- Claim C1 witness: the amended theorem instantiated on a fresh
three-account bank at `src = dest = 2`, `amount = 10`. -/
theorem claim1_self_transfer_acquires_lock_witness :
    getAccount (Bank.init 3) 2 = some ⟨2, 0, false⟩ ∧
    (Account.mk 2 0 false).locked = false ∧
    (∃ b2, (Bank.init 3).transfer 0 0 2 2 10 = some (-1, b2) ∧
      (∀ j : Int, getBalance b2 j = getBalance (Bank.init 3) j) ∧
      b2.num_succ = (Bank.init 3).num_succ ∧
      b2.num_fail = (Bank.init 3).num_fail ∧
      b2.log = (Bank.init 3).log ∧
      b2.events = (Bank.init 3).events ++ [LockEvent.lockEv 2] ∧
      getAccount b2 2 = some ⟨2, 0, true⟩) :=
  ⟨by decide, rfl,
    claim1_self_transfer_acquires_lock (b := Bank.init 3) (s := 2)
      (a := ⟨2, 0, false⟩) 0 0 10 (by decide) rfl⟩

/-- Claim C2: refuted on the code — at the concrete self-transfer
input the operation returns -1 but `num_fail` stays 0 and no log line
is emitted; `recordFail` is never reached (the early return at
bank.cpp:215 skips it), contradicting both the spec and the function's
own documentation, which promises an `[ ERROR ]` log line on every
failure. -/
theorem claim2_self_transfer_records_nothing :
    ((Bank.init 3).transfer 0 0 2 2 10).map
      (fun rb => (rb.1, rb.2.num_fail, rb.2.num_succ, rb.2.log)) =
      some (-1, 0, 0, []) := by
  decide

/-- Claim C3: refuted on the code — a ledger consisting of one
well-formed line `0 0 5 2` (a self-transfer) yields
`successCount + failCount = 0`, not 1: the self-transfer early return
records no outcome. -/
theorem claim3_totals_drop_self_transfers :
    (runLedger (Bank.init 10) [⟨0, 0, 5, 2, 0⟩]).map
      (fun b => b.num_succ + b.num_fail) = some 0 ∧
    [(⟨0, 0, 5, 2, 0⟩ : Ledger)].length = 1 := by
  decide

/-- Claim C4: on an in-range account whose lock is free, a withdraw of
`amt` succeeds (returns 0, records exactly one success and one log
line) iff `amt ≤ balance`; on success the balance becomes exactly
`balance - amt`; on failure (returns -1) the balance is unchanged and
exactly one failure and one log line are recorded. -/
theorem claim4_withdraw_spec {b : Bank} {i : Int} {a : Account}
    (w l amt : Int) (ha : getAccount b i = some a)
    (hl : a.locked = false) :
    (amt ≤ a.balance →
      ∃ b2, b.withdraw w l i amt = some (0, b2) ∧
        getBalance b2 i = some (a.balance - amt) ∧
        b2.num_succ = b.num_succ + 1 ∧ b2.num_fail = b.num_fail ∧
        b2.log = b.log ++ [Msg.wdMsg true w l i amt]) ∧
    (¬ amt ≤ a.balance →
      ∃ b2, b.withdraw w l i amt = some (-1, b2) ∧
        getBalance b2 i = some a.balance ∧
        b2.num_fail = b.num_fail + 1 ∧ b2.num_succ = b.num_succ ∧
        b2.log = b.log ++ [Msg.wdMsg false w l i amt]) := by
  constructor
  · intro hle
    exact ⟨_, withdraw_eq_succ w l ha hl hle,
      by simp [getBalance, getAccount, lookupAcct_set_self ha],
      rfl, rfl, rfl⟩
  · intro hgt
    exact ⟨_, withdraw_eq_fail w l ha hl (not_le.mp hgt),
      by simp [getBalance, getAccount, lookupAcct_set_self ha],
      rfl, rfl, rfl⟩

/-- Claim C4 witness: withdraw 30 from account 0 of `bankA`
(balance 100). -/
theorem claim4_withdraw_spec_witness :
    getAccount bankA 0 = some ⟨0, 100, false⟩ ∧
    (Account.mk 0 100 false).locked = false ∧
    (((30 : Int) ≤ 100 →
      ∃ b2, bankA.withdraw 5 6 0 30 = some (0, b2) ∧
        getBalance b2 0 = some (100 - 30) ∧
        b2.num_succ = bankA.num_succ + 1 ∧ b2.num_fail = bankA.num_fail ∧
        b2.log = bankA.log ++ [Msg.wdMsg true 5 6 0 30]) ∧
    (¬ (30 : Int) ≤ 100 →
      ∃ b2, bankA.withdraw 5 6 0 30 = some (-1, b2) ∧
        getBalance b2 0 = some 100 ∧
        b2.num_fail = bankA.num_fail + 1 ∧ b2.num_succ = bankA.num_succ ∧
        b2.log = bankA.log ++ [Msg.wdMsg false 5 6 0 30])) :=
  ⟨by decide, rfl,
    claim4_withdraw_spec (b := bankA) (i := 0) (a := ⟨0, 100, false⟩)
      5 6 30 (by decide) rfl⟩

/-- Claim C5: a transfer between two distinct in-range accounts whose
locks are free succeeds (returns 0) iff `amount ≤ source balance`; on
success the source loses exactly `amount`, the destination gains
exactly `amount` (so the sum of the two balances is preserved) and one
success is recorded; on failure (returns -1) both balances are
unchanged and one failure is recorded. -/
theorem claim5_transfer_spec {b : Bank} {s d : Int} {as ad : Account}
    (w l : Int) (amt : Nat)
    (hs : getAccount b s = some as) (hd : getAccount b d = some ad)
    (hls : as.locked = false) (hld : ad.locked = false) (hne : s ≠ d) :
    ((amt : Int) ≤ as.balance →
      ∃ b2, b.transfer w l s d amt = some (0, b2) ∧
        getBalance b2 s = some (as.balance - amt) ∧
        getBalance b2 d = some (ad.balance + amt) ∧
        (as.balance - amt) + (ad.balance + amt) = as.balance + ad.balance ∧
        b2.num_succ = b.num_succ + 1 ∧ b2.num_fail = b.num_fail) ∧
    (¬ (amt : Int) ≤ as.balance →
      ∃ b2, b.transfer w l s d amt = some (-1, b2) ∧
        getBalance b2 s = some as.balance ∧
        getBalance b2 d = some ad.balance ∧
        b2.num_succ = b.num_succ ∧ b2.num_fail = b.num_fail + 1) := by
  have hs0 : 0 ≤ s := lookupAcct_nonneg hs
  have hd0 : 0 ≤ d := lookupAcct_nonneg hd
  have hslt : s.toNat < b.accounts.length := lookupAcct_lt hs
  have hdlt : d.toNat < b.accounts.length := lookupAcct_lt hd
  have hne2 : s.toNat ≠ d.toNat := toNat_ne_of_ne hs0 hd0 hne
  have hne2s : d.toNat ≠ s.toNat := Ne.symm hne2
  constructor
  · intro hle
    rcases lt_or_gt_of_ne hne with hlt | hgt
    · exact ⟨_, transfer_eq_lt_succ w l hs hd hls hld hlt hle,
        by simp [getBalance, getAccount, lookupAcct, hs0, hslt,
          List.getElem?_set_self, List.getElem?_set_ne, hne2, hne2s],
        by simp [getBalance, getAccount, lookupAcct, hd0, hdlt,
          List.getElem?_set_self, List.getElem?_set_ne, hne2, hne2s],
        by ring, rfl, rfl⟩
    · exact ⟨_, transfer_eq_gt_succ w l hs hd hls hld hgt hle,
        by simp [getBalance, getAccount, lookupAcct, hs0, hslt,
          List.getElem?_set_self, List.getElem?_set_ne, hne2, hne2s],
        by simp [getBalance, getAccount, lookupAcct, hd0, hdlt,
          List.getElem?_set_self, List.getElem?_set_ne, hne2, hne2s],
        by ring, rfl, rfl⟩
  · intro hnle
    rcases lt_or_gt_of_ne hne with hlt | hgt
    · exact ⟨_, transfer_eq_lt_fail w l hs hd hls hld hlt (not_le.mp hnle),
        by simp [getBalance, getAccount, lookupAcct, hs0, hslt,
          List.getElem?_set_self, List.getElem?_set_ne, hne2, hne2s],
        by simp [getBalance, getAccount, lookupAcct, hd0, hdlt,
          List.getElem?_set_self, List.getElem?_set_ne, hne2, hne2s],
        rfl, rfl⟩
    · exact ⟨_, transfer_eq_gt_fail w l hs hd hls hld hgt (not_le.mp hnle),
        by simp [getBalance, getAccount, lookupAcct, hs0, hslt,
          List.getElem?_set_self, List.getElem?_set_ne, hne2, hne2s],
        by simp [getBalance, getAccount, lookupAcct, hd0, hdlt,
          List.getElem?_set_self, List.getElem?_set_ne, hne2, hne2s],
        rfl, rfl⟩

/-- Claim C5 witness: transfer 50 from account 0 (balance 100) to
account 1 (balance 0) of `bankA`. -/
theorem claim5_transfer_spec_witness :
    getAccount bankA 0 = some ⟨0, 100, false⟩ ∧
    getAccount bankA 1 = some ⟨1, 0, false⟩ ∧
    (0 : Int) ≠ 1 ∧
    ((((50 : Nat) : Int) ≤ 100 →
      ∃ b2, bankA.transfer 7 3 0 1 50 = some (0, b2) ∧
        getBalance b2 0 = some (100 - (50 : Nat)) ∧
        getBalance b2 1 = some (0 + (50 : Nat)) ∧
        (100 - ((50 : Nat) : Int)) + (0 + (50 : Nat)) = 100 + 0 ∧
        b2.num_succ = bankA.num_succ + 1 ∧ b2.num_fail = bankA.num_fail) ∧
    (¬ ((50 : Nat) : Int) ≤ 100 →
      ∃ b2, bankA.transfer 7 3 0 1 50 = some (-1, b2) ∧
        getBalance b2 0 = some 100 ∧
        getBalance b2 1 = some 0 ∧
        b2.num_succ = bankA.num_succ ∧
        b2.num_fail = bankA.num_fail + 1)) :=
  ⟨by decide, by decide, by decide,
    @claim5_transfer_spec bankA 0 1 ⟨0, 100, false⟩ ⟨1, 0, false⟩ 7 3 50
      (by decide) (by decide) rfl rfl (by decide)⟩

/-- Claim C6: every deposit on an in-range, unlocked account succeeds —
it returns 0 and records exactly one success and one log line — and a
whole sequence of deposits into a single account of a freshly
constructed bank (initial balance 0) leaves that account's balance
equal to the sum of the deposited amounts, with one success recorded
per deposit and no failures. -/
theorem claim6_deposit_sum (N : Nat) {i : Int} (h0 : 0 ≤ i)
    (hN : i.toNat < N) (ds : List (Int × Int × Int)) :
    (∀ (b : Bank) (a : Account) (w li amt : Int),
      getAccount b i = some a → a.locked = false →
      ∃ b2, b.deposit w li i amt = some (0, b2) ∧
        b2.num_succ = b.num_succ + 1 ∧
        b2.log = b.log ++ [Msg.depMsg true w li i amt]) ∧
    (∃ b2, runOps (Bank.init N) (ds.map fun p => Op.dep p.1 p.2.1 i p.2.2) =
        some b2 ∧
      getBalance b2 i = some (ds.map fun p => p.2.2).sum ∧
      b2.num_succ = ds.length ∧ b2.num_fail = 0) := by
  constructor
  · intro b a w li amt ha hl
    exact ⟨_, deposit_eq w li amt ha hl, rfl, rfl⟩
  · obtain ⟨b2, hrun, hget, hsucc, hfail, _⟩ :=
      runOps_deposits ds (getAccount_init h0 hN) rfl
    refine ⟨b2, hrun, ?_, by simpa [Bank.init] using hsucc,
      by simpa [Bank.init] using hfail⟩
    simp [getBalance, hget]

/-- Claim C6 witness: two deposits of 10 and 32 into account 1 of a
fresh three-account bank. -/
theorem claim6_deposit_sum_witness :
    (0 : Int) ≤ 1 ∧ (1 : Int).toNat < 3 ∧
    ((∀ (b : Bank) (a : Account) (w li amt : Int),
      getAccount b 1 = some a → a.locked = false →
      ∃ b2, b.deposit w li 1 amt = some (0, b2) ∧
        b2.num_succ = b.num_succ + 1 ∧
        b2.log = b.log ++ [Msg.depMsg true w li 1 amt]) ∧
    (∃ b2, runOps (Bank.init 3) [Op.dep 0 0 1 10, Op.dep 0 1 1 32] =
        some b2 ∧
      getBalance b2 1 = some 42 ∧
      b2.num_succ = 2 ∧ b2.num_fail = 0)) :=
  ⟨by decide, by decide,
    claim6_deposit_sum 3 (i := 1) (by decide) (by decide)
      [(0, 0, 10), (0, 1, 32)]⟩

/-- Claim C7: starting from the all-zero balances of a freshly
constructed bank, any sequence of dispatched operations whose deposit
and withdraw amounts are non-negative (transfer amounts are `unsigned`,
hence always non-negative) that runs to completion leaves every account
balance non-negative. -/
theorem claim7_balances_nonneg (N : Nat) (ops : List Op) (b : Bank)
    (hok : ∀ op ∈ ops, opAmountOk op = true)
    (hrun : runOps (Bank.init N) ops = some b) :
    ∀ x ∈ b.accounts, 0 ≤ x.balance :=
  runOps_preserves_nonneg hrun hok (init_balsNonneg N)

/-- Claim C7 witness: a deposit, a withdraw and a transfer on a fresh
two-account bank; the run completes and both final balances are
non-negative. -/
theorem claim7_balances_nonneg_witness :
    (∀ op ∈ [Op.dep 0 0 0 5, Op.wd 0 1 0 3, Op.tr 0 2 0 1 2],
      opAmountOk op = true) ∧
    runOps (Bank.init 2) [Op.dep 0 0 0 5, Op.wd 0 1 0 3, Op.tr 0 2 0 1 2] =
      some
        { num := 2
          accounts := [⟨0, 0, false⟩, ⟨1, 2, false⟩]
          num_succ := 3
          num_fail := 0
          log := [Msg.depMsg true 0 0 0 5, Msg.wdMsg true 0 1 0 3,
                  Msg.trMsg true 0 2 0 1 2]
          events := [LockEvent.lockEv 0, LockEvent.unlockEv 0,
                     LockEvent.lockEv 0, LockEvent.unlockEv 0,
                     LockEvent.lockEv 0, LockEvent.unlockEv 0,
                     LockEvent.lockEv 0, LockEvent.lockEv 1,
                     LockEvent.unlockEv 1, LockEvent.unlockEv 0] } ∧
    (∀ x ∈ (Bank.mk 2 [⟨0, 0, false⟩, ⟨1, 2, false⟩] 3 0
        [Msg.depMsg true 0 0 0 5, Msg.wdMsg true 0 1 0 3,
         Msg.trMsg true 0 2 0 1 2]
        [LockEvent.lockEv 0, LockEvent.unlockEv 0,
         LockEvent.lockEv 0, LockEvent.unlockEv 0,
         LockEvent.lockEv 0, LockEvent.unlockEv 0,
         LockEvent.lockEv 0, LockEvent.lockEv 1,
         LockEvent.unlockEv 1, LockEvent.unlockEv 0]).accounts,
      0 ≤ x.balance) :=
  ⟨by decide, by decide,
    claim7_balances_nonneg 2 [Op.dep 0 0 0 5, Op.wd 0 1 0 3, Op.tr 0 2 0 1 2]
      _ (by decide) (by decide)⟩

/-- Claim C8: refuted on the code — the self-transfer early return
leaves the source account's lock held (second conjunct), so a ledger
whose self-transfer entry is followed by any operation on the same
account blocks that operation forever: the single-worker run of the
two-entry ledger `1 1 5 2` then `1 0 7 0` gets stuck (first conjunct),
whereas the claim promises every worker terminates because every
operation releases every lock it acquires. -/
theorem claim8_self_transfer_lock_leak_deadlock :
    runLedger (Bank.init 10) [⟨1, 1, 5, 2, 0⟩, ⟨1, 0, 7, 0, 1⟩] = none ∧
    ((Bank.init 10).transfer 0 0 1 1 5).map
      (fun rb => (getAccount rb.2 1).map (fun a => a.locked)) =
      some (some true) := by
  decide

/-- Claim C9: the interface does not validate the sign of `amount`: a
deposit of a negative amount succeeds (returns 0) and strictly
decreases the balance — so the balance can go below zero — and a
withdraw of a negative amount from a non-negatively funded account
succeeds (the guard `amount ≤ balance` holds) and strictly increases
the balance. -/
theorem claim9_negative_amounts {b : Bank} {i : Int} {a : Account}
    (w l amt : Int) (ha : getAccount b i = some a)
    (hl : a.locked = false) (hneg : amt < 0) (hbal : 0 ≤ a.balance) :
    (∃ b2, b.deposit w l i amt = some (0, b2) ∧
       getBalance b2 i = some (a.balance + amt) ∧
       a.balance + amt < a.balance) ∧
    (∃ b2, b.withdraw w l i amt = some (0, b2) ∧
       getBalance b2 i = some (a.balance - amt) ∧
       a.balance < a.balance - amt) := by
  constructor
  · exact ⟨_, deposit_eq w l amt ha hl,
      by simp [getBalance, getAccount, lookupAcct_set_self ha], by omega⟩
  · have hle : amt ≤ a.balance := le_trans (le_of_lt hneg) hbal
    exact ⟨_, withdraw_eq_succ w l ha hl hle,
      by simp [getBalance, getAccount, lookupAcct_set_self ha], by omega⟩

/-- Claim C9 witness: deposit and withdraw of -5 on account 1 of
`bankA` (balance 0): the deposit drives the balance to -5 < 0, the
withdraw to +5. -/
theorem claim9_negative_amounts_witness :
    getAccount bankA 1 = some ⟨1, 0, false⟩ ∧
    (Account.mk 1 0 false).locked = false ∧
    (-5 : Int) < 0 ∧ (0 : Int) ≤ 0 ∧
    ((∃ b2, bankA.deposit 4 9 1 (-5) = some (0, b2) ∧
       getBalance b2 1 = some (0 + (-5)) ∧
       (0 : Int) + (-5) < 0) ∧
    (∃ b2, bankA.withdraw 4 9 1 (-5) = some (0, b2) ∧
       getBalance b2 1 = some (0 - (-5)) ∧
       (0 : Int) < 0 - (-5))) :=
  ⟨by decide, rfl, by decide, by decide,
    claim9_negative_amounts (b := bankA) (i := 1) (a := ⟨1, 0, false⟩)
      4 9 (-5) (by decide) rfl (by decide) (by decide)⟩

/-- Claim C10: deposit, withdraw and transfer index the account array
with no bounds check of their own; whenever every account-id argument
lies in `[0, N)` for a freshly constructed bank of `N` accounts, the
embedded account lookup never reaches its out-of-bounds (`none`)
branch: the lookup and all three operations return `some`. -/
theorem claim10_inrange_lookup_safe (N : Nat) {i s d : Int}
    (w l amtI : Int) (amtN : Nat)
    (h0 : 0 ≤ i) (hN : i.toNat < N) (hs0 : 0 ≤ s) (hsN : s.toNat < N)
    (hd0 : 0 ≤ d) (hdN : d.toNat < N) :
    (getAccount (Bank.init N) i).isSome = true ∧
    ((Bank.init N).deposit w l i amtI).isSome = true ∧
    ((Bank.init N).withdraw w l i amtI).isSome = true ∧
    ((Bank.init N).transfer w l s d amtN).isSome = true := by
  have hai := getAccount_init h0 hN
  have has := getAccount_init hs0 hsN
  have had := getAccount_init hd0 hdN
  refine ⟨by simp [hai], ?_, ?_, ?_⟩
  · rw [deposit_eq w l amtI hai rfl]
    rfl
  · by_cases hle : amtI ≤ (0 : Int)
    · rw [withdraw_eq_succ w l hai rfl hle]
      rfl
    · rw [withdraw_eq_fail w l hai rfl (not_le.mp hle)]
      rfl
  · by_cases hsd : s = d
    · subst hsd
      rw [transfer_self_eq w l amtN has rfl]
      rfl
    · rcases lt_or_gt_of_ne hsd with hlt | hgt
      · by_cases hle : (amtN : Int) ≤ 0
        · rw [transfer_eq_lt_succ w l has had rfl rfl hlt hle]
          rfl
        · rw [transfer_eq_lt_fail w l has had rfl rfl hlt (not_le.mp hle)]
          rfl
      · by_cases hle : (amtN : Int) ≤ 0
        · rw [transfer_eq_gt_succ w l has had rfl rfl hgt hle]
          rfl
        · rw [transfer_eq_gt_fail w l has had rfl rfl hgt (not_le.mp hle)]
          rfl

/-- Claim C10 witness: a five-account fresh bank with in-range ids
`i = 0`, `s = 2`, `d = 1`. -/
theorem claim10_inrange_lookup_safe_witness :
    (0 : Int) ≤ 0 ∧ (0 : Int).toNat < 5 ∧
    (0 : Int) ≤ 2 ∧ (2 : Int).toNat < 5 ∧
    (0 : Int) ≤ 1 ∧ (1 : Int).toNat < 5 ∧
    ((getAccount (Bank.init 5) 0).isSome = true ∧
     ((Bank.init 5).deposit 3 8 0 (-7)).isSome = true ∧
     ((Bank.init 5).withdraw 3 8 0 (-7)).isSome = true ∧
     ((Bank.init 5).transfer 3 8 2 1 9).isSome = true) :=
  ⟨by decide, by decide, by decide, by decide, by decide, by decide,
    claim10_inrange_lookup_safe 5 (i := 0) (s := 2) (d := 1) 3 8 (-7) 9
      (by decide) (by decide) (by decide) (by decide) (by decide)
      (by decide)⟩
